import Mathlib

/-!
Verification of the STREETLAB browser scripts.

Two scripts are modelled as pure state-transition functions over explicit
state types:

* `src/static/js/product.js` — the size-selector click handler.  The page
  state (`ProductState`) holds the list of size-option elements (each with
  its `active` / `disabled` class markers and its `data-size` value), the
  hidden input `#selectedSize`, and the add-to-cart button's `disabled`
  property and `btn--disabled` class.  A click on option `i` is `click s i`.

* `src/unnamed/part_000` — the toast notifier.  The page state
  (`ToastPage`) holds the optional `#toast` element (its text content and
  whether the `show` class is present).  The `DOMContentLoaded` handler is
  `toastOnReady`, returning the new page state together with the delay (ms)
  of the scheduled `setTimeout` callback, if one was scheduled; the
  callback itself is `toastTimeoutCallback`.
-/

/-- One size-option element (`.option`): its `active` class, its
`disabled` class, and its `data-size` attribute (`none` when absent). -/
structure SizeOption where
  active : Bool
  disabled : Bool
  size : Option String
deriving Repr, DecidableEq

/-- The page state touched by `product.js`: the static list of `.option`
elements, the hidden input `#selectedSize` (its `value`, kept as the
copied data value), and the add-to-cart button `#addToCartBtn` (its
`disabled` property and its `btn--disabled` class). -/
structure ProductState where
  options : List SizeOption
  sizeInputValue : Option String
  addToCartDisabled : Bool
  addToCartDisabledClass : Bool
deriving Repr, DecidableEq

/-- `b.classList.remove("active")`, applied to every button. -/
def clearActive (o : SizeOption) : SizeOption := { o with active := false }

/-- The click handler of `product.js` attached to option `i`:
if the button has class `disabled`, return; otherwise remove `active`
from every option, add `active` to the clicked one, set
`sizeInput.value = button.dataset.size`, and enable the add-to-cart
button (`disabled = false`, remove class `btn--disabled`). -/
def click (s : ProductState) (i : Nat) : ProductState :=
  match s.options[i]? with
  | none => s
  | some b =>
    if b.disabled then s
    else
      { options := (s.options.map clearActive).set i { b with active := true },
        sizeInputValue := b.size,
        addToCartDisabled := false,
        addToCartDisabledClass := false }

/-- A sequence of clicks, applied left to right. -/
def clicks (s : ProductState) (l : List Nat) : ProductState :=
  l.foldl click s

/-- The list of `active` markers of the options, in order. -/
def activeMarks (s : ProductState) : List Bool :=
  s.options.map (·.active)

/-- The list of `disabled` markers of the options, in order. -/
def disabledMarks (s : ProductState) : List Bool :=
  s.options.map (·.disabled)

/-- How many options carry the `active` marker. -/
def numActive (s : ProductState) : Nat :=
  s.options.countP (·.active)

/-- The add-to-cart button is enabled: `disabled` property cleared and
`btn--disabled` class absent. -/
def addEnabled (s : ProductState) : Prop :=
  s.addToCartDisabled = false ∧ s.addToCartDisabledClass = false

instance (s : ProductState) : Decidable (addEnabled s) := by
  unfold addEnabled; infer_instance

/-- The selection mask that puts `true` exactly at index `i` of `n`
positions. -/
def selMask (n i : Nat) : List Bool :=
  (List.range n).map (fun j => decide (j = i))

/-- The `#toast` element: its text content and whether the `show` class
is present. -/
structure ToastElem where
  text : String
  visible : Bool
deriving Repr, DecidableEq

/-- The page state touched by the toast script: the `#toast` element, or
`none` when absent. -/
structure ToastPage where
  toast : Option ToastElem
deriving Repr, DecidableEq

/-- The ECMA-262 whitespace set stripped by `String.prototype.trim`:
WhiteSpace (TAB, VT, FF, SP, NBSP, ZWNBSP and the Zs space separators)
together with LineTerminator (LF, CR, LS, PS). -/
def jsWhitespace (c : Char) : Bool :=
  c.toNat = 0x9 || c.toNat = 0xA || c.toNat = 0xB || c.toNat = 0xC ||
  c.toNat = 0xD || c.toNat = 0x20 || c.toNat = 0xA0 || c.toNat = 0x1680 ||
  (0x2000 ≤ c.toNat && c.toNat ≤ 0x200A) ||
  c.toNat = 0x2028 || c.toNat = 0x2029 || c.toNat = 0x202F ||
  c.toNat = 0x205F || c.toNat = 0x3000 || c.toNat = 0xFEFF

/-- JS `String.prototype.trim`, modelled on the character list of the
string: drop the ECMA-262 whitespace characters from both ends. -/
def jsTrim (s : String) : List Char :=
  ((s.data.dropWhile jsWhitespace).reverse.dropWhile jsWhitespace).reverse

/-- The `DOMContentLoaded` handler of the toast script: look up `#toast`;
if absent, return; trim its text content; if non-empty, add class `show`
and schedule its removal after 2600 ms.  The second component is the
delay of the scheduled `setTimeout`, `none` when nothing was scheduled. -/
def toastOnReady (p : ToastPage) : ToastPage × Option Nat :=
  match p.toast with
  | none => (p, none)
  | some t =>
    if 0 < (jsTrim t.text).length then
      ({ toast := some { t with visible := true } }, some 2600)
    else (p, none)

/-- The scheduled `setTimeout` callback: remove class `show` from
`#toast`. -/
def toastTimeoutCallback (p : ToastPage) : ToastPage :=
  match p.toast with
  | none => p
  | some t => { toast := some { t with visible := false } }

/-- A demo page with options S, M, L, none disabled, nothing selected,
hidden input empty, add-to-cart disabled — the load state of the spec
example. -/
def demoState : ProductState :=
  ⟨[⟨false, false, some "S"⟩, ⟨false, false, some "M"⟩, ⟨false, false, some "L"⟩],
   none, true, true⟩

/-- A demo page where S is selected and M carries the `disabled` class. -/
def demoPartial : ProductState :=
  ⟨[⟨true, false, some "S"⟩, ⟨false, true, some "M"⟩], some "S", false, false⟩

/-- A demo page with a disabled option M among S, M, L. -/
def demoMixed : ProductState :=
  ⟨[⟨false, false, some "S"⟩, ⟨false, true, some "M"⟩, ⟨false, false, some "L"⟩],
   none, true, true⟩

/-- A demo page whose single option has no `data-size` attribute. -/
def demoNoSize : ProductState :=
  ⟨[⟨false, false, none⟩], some "S", true, true⟩

/-- A demo toast page with a non-empty message. -/
def demoToast : ToastPage := ⟨some ⟨"Item added", false⟩⟩

/-- A demo toast page whose message is whitespace only, including a
no-break space (U+00A0), which JS trim strips. -/
def demoBlankToast : ToastPage := ⟨some ⟨"  \t ", false⟩⟩

-- Basic facts about `click`.

theorem click_of_none {s : ProductState} {i : Nat}
    (h : s.options[i]? = none) : click s i = s := by
  simp [click, h]

theorem click_of_disabled {s : ProductState} {i : Nat} {b : SizeOption}
    (h : s.options[i]? = some b) (hd : b.disabled = true) : click s i = s := by
  simp [click, h, hd]

theorem click_of_valid {s : ProductState} {i : Nat} {b : SizeOption}
    (h : s.options[i]? = some b) (hd : b.disabled = false) :
    click s i =
      { options := (s.options.map clearActive).set i { b with active := true },
        sizeInputValue := b.size,
        addToCartDisabled := false,
        addToCartDisabledClass := false } := by
  simp [click, h, hd]

-- List helpers.

theorem set_self_of_getElem? {α : Type} {l : List α} {i : Nat} {x : α}
    (h : l[i]? = some x) : l.set i x = l := by
  apply List.ext_getElem?
  intro j
  rcases eq_or_ne i j with rfl | hij
  · rw [List.getElem?_set_self (List.getElem?_eq_some_iff.mp h).1, h]
  · rw [List.getElem?_set_ne hij]

theorem replicate_set_eq_selMask {n i : Nat} (h : i < n) :
    (List.replicate n false).set i true = selMask n i := by
  apply List.ext_getElem?
  intro j
  rcases eq_or_ne i j with rfl | hij
  · rw [List.getElem?_set_self (by simpa using h)]
    unfold selMask
    rw [List.getElem?_map, List.getElem?_range h]
    simp
  · rw [List.getElem?_set_ne hij]
    unfold selMask
    rw [List.getElem?_map, List.getElem?_replicate]
    by_cases hj : j < n
    · rw [List.getElem?_range hj]
      simp [hj, Ne.symm hij]
    · rw [List.getElem?_eq_none (by simpa using Nat.le_of_not_lt hj)]
      simp [hj]

-- Effect of a valid click.

theorem activeMarks_click_valid {s : ProductState} {i : Nat} {b : SizeOption}
    (hb : s.options[i]? = some b) (hd : b.disabled = false) :
    activeMarks (click s i) = selMask s.options.length i := by
  have hi : i < s.options.length := (List.getElem?_eq_some_iff.mp hb).1
  rw [click_of_valid hb hd]
  unfold activeMarks
  simp only [List.map_set, List.map_map]
  have hc : (fun o : SizeOption => o.active) ∘ clearActive = fun _ => false := by
    funext o; rfl
  rw [hc, List.map_const']
  exact replicate_set_eq_selMask hi

theorem numActive_click_valid {s : ProductState} {i : Nat} {b : SizeOption}
    (hb : s.options[i]? = some b) (hd : b.disabled = false) :
    numActive (click s i) = 1 := by
  have hi : i < s.options.length := (List.getElem?_eq_some_iff.mp hb).1
  rw [click_of_valid hb hd]
  unfold numActive
  rw [List.countP_set _ _ _ _ (by simpa using hi)]
  have h0 : List.countP (fun o : SizeOption => o.active) (s.options.map clearActive) = 0 := by
    rw [List.countP_map]
    simp [Function.comp, clearActive]
  simp [h0, List.getElem_map, clearActive]

theorem numActive_click_le {s : ProductState} {i : Nat}
    (h : numActive s ≤ 1) : numActive (click s i) ≤ 1 := by
  match hb : s.options[i]? with
  | none => rw [click_of_none hb]; exact h
  | some b =>
    cases hd : b.disabled with
    | true => rw [click_of_disabled hb hd]; exact h
    | false => rw [numActive_click_valid hb hd]

theorem numActive_clicks_le {s : ProductState} (h : numActive s ≤ 1) :
    ∀ l : List Nat, numActive (clicks s l) ≤ 1 := by
  intro l
  induction l generalizing s with
  | nil => exact h
  | cons a l ih =>
    have hstep : clicks s (a :: l) = clicks (click s a) l := by simp [clicks]
    rw [hstep]
    exact ih (numActive_click_le h)

-- Add-to-cart enablement.

theorem addEnabled_click_valid {s : ProductState} {i : Nat} {b : SizeOption}
    (hb : s.options[i]? = some b) (hd : b.disabled = false) :
    addEnabled (click s i) := by
  rw [click_of_valid hb hd]
  exact ⟨rfl, rfl⟩

theorem addEnabled_click {s : ProductState} (h : addEnabled s) (i : Nat) :
    addEnabled (click s i) := by
  match hb : s.options[i]? with
  | none => rw [click_of_none hb]; exact h
  | some b =>
    cases hd : b.disabled with
    | true => rw [click_of_disabled hb hd]; exact h
    | false => exact addEnabled_click_valid hb hd

theorem addEnabled_clicks {s : ProductState} (h : addEnabled s) :
    ∀ l : List Nat, addEnabled (clicks s l) := by
  intro l
  induction l generalizing s with
  | nil => exact h
  | cons a l ih =>
    have hstep : clicks s (a :: l) = clicks (click s a) l := by simp [clicks]
    rw [hstep]
    exact ih (addEnabled_click h a)

-- The disabled markers are never touched.

theorem disabledMarks_click (s : ProductState) (i : Nat) :
    disabledMarks (click s i) = disabledMarks s := by
  match hb : s.options[i]? with
  | none => rw [click_of_none hb]
  | some b =>
    cases hd : b.disabled with
    | true => rw [click_of_disabled hb hd]
    | false =>
      rw [click_of_valid hb hd]
      unfold disabledMarks
      simp only [List.map_set, List.map_map]
      have hc : (fun o : SizeOption => o.disabled) ∘ clearActive =
          fun o : SizeOption => o.disabled := by
        funext o; rfl
      rw [hc]
      apply set_self_of_getElem?
      rw [List.getElem?_map, hb]
      rfl

-- Idempotence of a valid click.

theorem click_click_valid {s : ProductState} {i : Nat} {b : SizeOption}
    (hb : s.options[i]? = some b) (hd : b.disabled = false) :
    click (click s i) i = click s i := by
  have hi : i < s.options.length := (List.getElem?_eq_some_iff.mp hb).1
  have h1 := click_of_valid hb hd
  have hb2 : (click s i).options[i]? = some { b with active := true } := by
    rw [h1]
    exact List.getElem?_set_self (by simpa using hi)
  have hd2 : ({ b with active := true } : SizeOption).disabled = false := hd
  rw [click_of_valid hb2 hd2, h1]
  simp only [List.map_set, List.map_map, List.set_set]
  have hc : clearActive ∘ clearActive = clearActive := by
    funext o; rfl
  rw [hc]

-- Claim theorems.

/-- C1: at most one option carries the `active` marker under every click
sequence, and after a click on a non-disabled option, that option and only
that option carries it. -/
theorem sizeSelector_mutual_exclusion (s : ProductState) (i : Nat) :
    (∀ b : SizeOption, s.options[i]? = some b → b.disabled = false →
        activeMarks (click s i) = selMask s.options.length i) ∧
    (numActive s ≤ 1 → ∀ l : List Nat, numActive (clicks s l) ≤ 1) := by
  constructor
  · intro b hb hd
    exact activeMarks_click_valid hb hd
  · intro h l
    exact numActive_clicks_le h l

/-- Witness for C1: clicking S then L on the demo page leaves only L
selected, and every click sequence keeps at most one option selected. -/
theorem sizeSelector_mutual_exclusion_witness :
    activeMarks (click demoState 2) = selMask 3 2 ∧
    numActive (clicks demoState [0, 2]) ≤ 1 :=
  ⟨(sizeSelector_mutual_exclusion demoState 2).1 ⟨false, false, some "L"⟩ rfl rfl,
   (sizeSelector_mutual_exclusion demoState 2).2 (by decide) [0, 2]⟩

/-- C2: a click on a non-disabled option copies its `data-size` value into
the hidden input, marks that option (and only it) selected, and enables
the add-to-cart control. -/
theorem sizeSelector_valid_click_effect (s : ProductState) (i : Nat) (b : SizeOption)
    (hb : s.options[i]? = some b) (hd : b.disabled = false) :
    (click s i).sizeInputValue = b.size ∧
    ((click s i).options[i]?).map (·.active) = some true ∧
    activeMarks (click s i) = selMask s.options.length i ∧
    (click s i).addToCartDisabled = false ∧
    (click s i).addToCartDisabledClass = false := by
  have hi : i < s.options.length := (List.getElem?_eq_some_iff.mp hb).1
  refine ⟨?_, ?_, activeMarks_click_valid hb hd, ?_, ?_⟩
  · rw [click_of_valid hb hd]
  · rw [click_of_valid hb hd]
    rw [List.getElem?_set_self (by simpa using hi)]
    rfl
  · rw [click_of_valid hb hd]
  · rw [click_of_valid hb hd]

/-- Witness for C2: clicking M on the S, M, L demo page yields hidden
input value M, only M selected, and the add-to-cart control enabled. -/
theorem sizeSelector_valid_click_effect_witness :
    (click demoState 1).sizeInputValue = some "M" ∧
    ((click demoState 1).options[1]?).map (·.active) = some true ∧
    activeMarks (click demoState 1) = selMask 3 1 ∧
    (click demoState 1).addToCartDisabled = false ∧
    (click demoState 1).addToCartDisabledClass = false :=
  sizeSelector_valid_click_effect demoState 1 ⟨false, false, some "M"⟩ rfl rfl

/-- C3: a click on an option carrying the `disabled` class leaves the
whole page state unchanged. -/
theorem sizeSelector_disabled_click_noop (s : ProductState) (i : Nat) (b : SizeOption)
    (hb : s.options[i]? = some b) (hd : b.disabled = true) :
    click s i = s :=
  click_of_disabled hb hd

/-- Witness for C3: clicking the disabled option M leaves the page
unchanged. -/
theorem sizeSelector_disabled_click_noop_witness :
    click demoPartial 1 = demoPartial :=
  sizeSelector_disabled_click_noop demoPartial 1 ⟨false, true, some "M"⟩ rfl rfl

/-- C4: once a click on a non-disabled option enables the add-to-cart
control, every further click sequence keeps it enabled. -/
theorem addToCart_monotone_enabled (s : ProductState) (i : Nat) (b : SizeOption)
    (hb : s.options[i]? = some b) (hd : b.disabled = false) (l : List Nat) :
    addEnabled (clicks (click s i) l) :=
  addEnabled_clicks (addEnabled_click_valid hb hd) l

/-- Witness for C4: after clicking S, further clicks (including on the
disabled M and out of range) keep the add-to-cart control enabled. -/
theorem addToCart_monotone_enabled_witness :
    addEnabled (clicks (click demoMixed 0) [1, 2, 1, 5]) :=
  addToCart_monotone_enabled demoMixed 0 ⟨false, false, some "S"⟩ rfl rfl [1, 2, 1, 5]

/-- C5: a toast whose trimmed text is non-empty gains the `show` class at
page-ready, the removal is scheduled after exactly 2600 ms, and the
scheduled callback removes the class. -/
theorem toast_nonempty_shows_then_hides (p : ToastPage) (t : ToastElem)
    (hp : p.toast = some t) (h : 0 < (jsTrim t.text).length) :
    (toastOnReady p).1.toast = some { t with visible := true } ∧
    (toastOnReady p).2 = some 2600 ∧
    (toastTimeoutCallback (toastOnReady p).1).toast = some { t with visible := false } := by
  simp [toastOnReady, toastTimeoutCallback, hp, h]

/-- Witness for C5 on the toast with text Item added. -/
theorem toast_nonempty_shows_then_hides_witness :
    (toastOnReady demoToast).1.toast = some ⟨"Item added", true⟩ ∧
    (toastOnReady demoToast).2 = some 2600 ∧
    (toastTimeoutCallback (toastOnReady demoToast).1).toast = some ⟨"Item added", false⟩ :=
  toast_nonempty_shows_then_hides demoToast ⟨"Item added", false⟩ rfl (by decide)

/-- C6: a toast whose text trims to the empty string is left untouched
and nothing is scheduled. -/
theorem toast_blank_noop (p : ToastPage) (t : ToastElem)
    (hp : p.toast = some t) (h : (jsTrim t.text).length = 0) :
    toastOnReady p = (p, none) := by
  simp [toastOnReady, hp, h]

/-- Witness for C6 on a whitespace-only toast. -/
theorem toast_blank_noop_witness :
    toastOnReady demoBlankToast = (demoBlankToast, none) :=
  toast_blank_noop demoBlankToast ⟨"  \t ", false⟩ rfl (by decide)

/-- C7: when the toast element is absent the handler does nothing. -/
theorem toast_absent_noop (p : ToastPage) (hp : p.toast = none) :
    toastOnReady p = (p, none) := by
  simp [toastOnReady, hp]

/-- Witness for C7 on the page without a toast element. -/
theorem toast_absent_noop_witness :
    toastOnReady ⟨none⟩ = (⟨none⟩, none) :=
  toast_absent_noop ⟨none⟩ rfl

/-- C8: clicking the same non-disabled option twice yields exactly the
state of clicking it once. -/
theorem sizeSelector_click_idempotent (s : ProductState) (i : Nat) (b : SizeOption)
    (hb : s.options[i]? = some b) (hd : b.disabled = false) :
    click (click s i) i = click s i :=
  click_click_valid hb hd

/-- Witness for C8: double-clicking S equals a single click. -/
theorem sizeSelector_click_idempotent_witness :
    click (click demoState 0) 0 = click demoState 0 :=
  sizeSelector_click_idempotent demoState 0 ⟨false, false, some "S"⟩ rfl rfl

/-- C9: no click sequence ever changes the `disabled` markers of the
options. -/
theorem sizeSelector_preserves_disabledMarks (s : ProductState) (l : List Nat) :
    disabledMarks (clicks s l) = disabledMarks s := by
  induction l generalizing s with
  | nil => rfl
  | cons a l ih =>
    have hstep : clicks s (a :: l) = clicks (click s a) l := by simp [clicks]
    rw [hstep, ih, disabledMarks_click]

/-- C10: a non-disabled option with no `data-size` attribute is still
selected on click, the hidden input is overwritten with the absent value,
and the add-to-cart control is enabled. -/
theorem sizeSelector_click_without_size_attr (s : ProductState) (i : Nat) (b : SizeOption)
    (hb : s.options[i]? = some b) (hd : b.disabled = false) (hs : b.size = none) :
    (click s i).sizeInputValue = none ∧
    ((click s i).options[i]?).map (·.active) = some true ∧
    addEnabled (click s i) := by
  have hi : i < s.options.length := (List.getElem?_eq_some_iff.mp hb).1
  refine ⟨?_, ?_, addEnabled_click_valid hb hd⟩
  · rw [click_of_valid hb hd]
    exact hs
  · rw [click_of_valid hb hd]
    rw [List.getElem?_set_self (by simpa using hi)]
    rfl

/-- Witness for C10 on the option without a `data-size` attribute. -/
theorem sizeSelector_click_without_size_attr_witness :
    (click demoNoSize 0).sizeInputValue = none ∧
    ((click demoNoSize 0).options[0]?).map (·.active) = some true ∧
    addEnabled (click demoNoSize 0) :=
  sizeSelector_click_without_size_attr demoNoSize 0 ⟨false, false, none⟩ rfl rfl rfl
